import Mathlib

/-!
Verification of the on-save syntax-check orchestrator in
`SyntaxCheckPlugin.py` (Rust Enhanced).

The orchestrator (`RustSyntaxCheckThread.run` / `get_rustc_messages` /
`on_json`, and the event hook `RustSyntaxCheckEvent.on_post_save`) is
embedded shallowly: external collaborators (settings, target detector,
command builder, process runner, message aggregator, semver matcher) are
modelled as inputs in an environment record `Env`, and the observable
state of one run (aggregator store, status indicator, trace of started
processes, console output) is an explicit state record `St` threaded
through the run.
-/

/-- One structured diagnostic object delivered by the process runner to
`on_json` and forwarded to the message aggregator.  Only the file path it
reports against is observable to the orchestrator (via
`messages.has_message_for_path`). -/
structure Diag where
  path : String
deriving DecidableEq, Repr

/-- How one external process run ends, from the orchestrator's point of
view: normal exit, a `ProcessTerminatedError` raised during
`p.run`/`p.wait` (cancellation), or any other exception propagating out
(spawn/tool failure). -/
inductive ProcEnd where
  | ok
  | cancelled
  | failed
deriving DecidableEq, Repr

/-- Behaviour of one external process: the diagnostic objects it delivers
to `on_json` (in order, before the end event), then how it ends.  A
process cancelled mid-stream is modelled by listing exactly the
diagnostics delivered before termination. -/
structure ProcOutcome where
  diags : List Diag
  result : ProcEnd
deriving DecidableEq, Repr

/-- The `rust_syntax_checking_method` setting:
`check`, `no-trans` (legacy unstable) or `clippy` (lint all). -/
inductive Method where
  | check
  | noTrans
  | clippy
deriving DecidableEq, Repr

/-- One entry of `target_detect.TargetDetector.determine_targets`:
a `(target_src, target_args)` pair. -/
structure Target where
  src : String
  args : List String
deriving DecidableEq, Repr

/-- The part of `cargo_settings.CargoSettings.get_command`'s result the
orchestrator reads: the base argument vector `cmd['command']`, and the
truth value of `semver.match(cmd['rustc_version'], '>=1.23.0')` (the
semver matcher is an external collaborator; only its boolean answer is
consumed). -/
structure Cmd where
  command : List String
  rustcVersionOk : Bool
deriving DecidableEq, Repr

/-- Environment of one run: settings values, manifest lookup result,
detected targets, the command builder, and the behaviour of each external
process that could be spawned (`targetOutcome i` is the process for the
i-th target in detector order; `clippyOutcome` the single clippy
process). -/
structure Env where
  method : Method
  includeTests : Bool
  manifestDir : Option String
  triggeredFile : String
  targets : List Target
  getCommand : Target → Cmd
  clippyCmd : Cmd
  targetOutcome : Nat → ProcOutcome
  clippyOutcome : ProcOutcome

/-- Trace record of one started process: the argument vector it was
started with and, for target-loop processes, the `target_src` it was
scoped to (`none` for the single clippy invocation). -/
structure ProcStart where
  command : List String
  targetSrc : Option String
deriving DecidableEq, Repr

/-- Observable state threaded through one run:
the aggregator's per-window store (`messages`), the run's
`this_view_found` flag, the view's status-indicator state plus a counter
of `set_status` calls, a counter of `messages.clear_messages` calls,
whether `messages.messages_finished` was called, whether the target
detector was queried, the processes started (in order), and console
output. -/
structure St where
  messages : List Diag
  thisViewFound : Bool
  statusSet : Bool
  statusSets : Nat
  clearCalls : Nat
  finalized : Bool
  resolverQueried : Bool
  procs : List ProcStart
  console : List String
deriving DecidableEq, Repr

/-- A fresh window state whose aggregator store holds `msgs`
(diagnostics possibly left by earlier runs). -/
def St.init (msgs : List Diag) : St :=
  { messages := msgs
    thisViewFound := false
    statusSet := false
    statusSets := 0
    clearCalls := 0
    finalized := false
    resolverQueried := false
    procs := []
    console := [] }

/-- `messages.has_message_for_path`: does the aggregator store hold a
diagnostic for this path? -/
def hasMessageForPath (msgs : List Diag) (path : String) : Bool :=
  msgs.any fun d => d.path == path

/-- `RustSyntaxCheckThread.on_json`: forward the object to
`messages.add_rust_messages`, then set `this_view_found` if the
aggregator now reports a message for the triggering file. -/
def onJson (tf : String) (st : St) (d : Diag) : St :=
  let msgs := st.messages ++ [d]
  { st with
      messages := msgs
      thisViewFound := st.thisViewFound || hasMessageForPath msgs tf }

/-- Deliver a process's diagnostic stream to `on_json`, one object at a
time in order. -/
def processDiags (tf : String) : List Diag → St → St
  | [], st => st
  | d :: ds, st => processDiags tf ds (onJson tf st d)

/-- Whether the target args mark a test or benchmark target (line 148:
membership of --test or --bench in target_args). -/
def isTestOrBench (args : List String) : Bool :=
  args.contains "--test" || args.contains "--bench"

/-- Mode-specific augmentation of the base command for one target
(`get_rustc_messages`, lines 145–158): `no-trans` always appends
`--`, `-Zno-trans`, `-Zunstable-options` and appends `--test` when the
include-tests setting is on and the target is not itself a test/bench
target; `check` appends `--profile=test` when the include-tests setting
is on and the toolchain version matches `>=1.23.0`. -/
def buildTargetCommand (env : Env) (t : Target) : List String :=
  let cmd := env.getCommand t
  match env.method with
  | Method.noTrans =>
      let c := cmd.command ++ ["--", "-Zno-trans", "-Zunstable-options"]
      if env.includeTests && !(isTestOrBench t.args) then c ++ ["--test"] else c
  | Method.check =>
      if env.includeTests && cmd.rustcVersionOk then
        cmd.command ++ ["--profile=test"]
      else cmd.command
  | Method.clippy => cmd.command

/-- One iteration of the target loop body up to `p.wait()`: start the
process for target `t` (recorded in the trace) and deliver its
diagnostic stream. -/
def applyTarget (env : Env) (i : Nat) (t : Target) (st : St) : St :=
  let st1 := { st with
      procs := st.procs ++ [ProcStart.mk (buildTargetCommand env t) (some t.src)] }
  processDiags env.triggeredFile (env.targetOutcome i).diags st1

/-- The target loop of `get_rustc_messages` (lines 140–164): run each
target's process in order; an exception during run/wait ends the loop
with that exception; after a normal wait, stop if `this_view_found`. -/
def runTargetLoop (env : Env) : List Target → Nat → St → St × ProcEnd
  | [], _, st => (st, ProcEnd.ok)
  | t :: rest, i, st =>
      let st1 := applyTarget env i t st
      if (env.targetOutcome i).result = ProcEnd.ok then
        if st1.thisViewFound then (st1, ProcEnd.ok)
        else runTargetLoop env rest (i + 1) st1
      else (st1, (env.targetOutcome i).result)

/-- Marks the target detector as queried
(`TargetDetector.determine_targets`, line 139). -/
def loopStart (st : St) : St :=
  { st with resolverQueried := true }

/-- `RustSyntaxCheckThread.get_rustc_messages`: clippy runs a single
invocation with no target detection; the other methods query the target
detector and run the target loop. -/
def get_rustc_messages (env : Env) (st : St) : St × ProcEnd :=
  match env.method with
  | Method.clippy =>
      let st1 := { st with
          procs := st.procs ++ [ProcStart.mk env.clippyCmd.command none] }
      (processDiags env.triggeredFile env.clippyOutcome.diags st1,
        env.clippyOutcome.result)
  | _ => runTargetLoop env env.targets 0 (loopStart st)

/-- How `RustSyntaxCheckThread.run` returns: normally after finalize,
early on a missing manifest, by `return` on `ProcessTerminatedError`, or
by an exception propagating out. -/
inductive RunExit where
  | completed
  | noManifest
  | cancelled
  | toolError
deriving DecidableEq, Repr

/-- The three console lines printed when no `Cargo.toml` is found. -/
def noManifestConsole (tf : String) : List String :=
  ["Rust Enhanced skipping on-save syntax check.",
   "Failed to find Cargo.toml from " ++ tf,
   "A Cargo.toml manifest is required."]

/-- Lines 103–106 of `run`: set the status indicator, reset
`this_view_found`, clear the aggregator store. -/
def preLoop (st : St) : St :=
  { st with
      statusSet := true
      statusSets := st.statusSets + 1
      thisViewFound := false
      messages := []
      clearCalls := st.clearCalls + 1 }

/-- The tail of `run` after `get_rustc_messages` returns or raises:
on normal return call `messages.messages_finished`; on
`ProcessTerminatedError` just `return`; any other exception propagates.
In every one of these cases the `finally` block erases the status
indicator. -/
def runFinish : St × ProcEnd → St × RunExit
  | (st2, ProcEnd.ok) =>
      ({ st2 with finalized := true, statusSet := false }, RunExit.completed)
  | (st2, ProcEnd.cancelled) =>
      ({ st2 with statusSet := false }, RunExit.cancelled)
  | (st2, ProcEnd.failed) =>
      ({ st2 with statusSet := false }, RunExit.toolError)

/-- `RustSyntaxCheckThread.run`: abort (with console output only) when
no manifest is found; otherwise set status, clear messages, run
`get_rustc_messages`, finalize only on normal return, and erase the
status indicator on every exit path (the `finally` block). -/
def run (env : Env) (st : St) : St × RunExit :=
  match env.manifestDir with
  | none =>
      ({ st with console := st.console ++ noManifestConsole env.triggeredFile },
        RunExit.noManifest)
  | some _ => runFinish (get_rustc_messages env (preLoop st))

/-- The action `RustSyntaxCheckEvent.on_post_save` takes. -/
inductive SaveAction where
  | noAction
  | startCheck
  | clearMessages
deriving DecidableEq, Repr

/-- Inputs read by `on_post_save`: the editor version
(`int(sublime.version())`), the `rust_syntax_checking` setting, and
whether the active view is a Rust view. -/
structure SaveEnv where
  version : Nat
  enabled : Bool
  isRustView : Bool
deriving DecidableEq, Repr

/-- `RustSyntaxCheckEvent.on_post_save` (lines 52–65): versions below
3118 return immediately; otherwise start a check when enabled on a Rust
view, and clear phantom messages when the feature is disabled. -/
def on_post_save (e : SaveEnv) : SaveAction :=
  if e.version < 3118 then SaveAction.noAction
  else if e.enabled && e.isRustView then SaveAction.startCheck
  else if !e.enabled then SaveAction.clearMessages
  else SaveAction.noAction

/-- State evolution of running the processes of a given target list
unconditionally in order (no early stop, all ends ignored); the loop's
reachable states are exactly these on the started part of the list. -/
def runSeq (env : Env) : List Target → Nat → St → St
  | [], _, st => st
  | t :: rest, i, st => runSeq env rest (i + 1) (applyTarget env i t st)

/-- `runSeq` over the first `n` detected targets, from the loop entry
state. -/
def afterTargets (env : Env) (st : St) (n : Nat) : St :=
  runSeq env (env.targets.take n) 0 (loopStart st)

/-- Concatenated diagnostic streams of the processes for targets
`i, i+1, …, i+n-1`. -/
def diagsFrom (env : Env) : Nat → Nat → List Diag
  | _, 0 => []
  | i, n + 1 => (env.targetOutcome i).diags ++ diagsFrom env (i + 1) n

/-- A concrete environment: `check` method, two targets, all processes
exit normally with no diagnostics. -/
def envBase : Env :=
  { method := Method.check
    includeTests := true
    manifestDir := some "proj"
    triggeredFile := "src/main.rs"
    targets := [Target.mk "src/main.rs" [], Target.mk "src/lib.rs" []]
    getCommand := fun _ => Cmd.mk ["cargo", "check"] true
    clippyCmd := Cmd.mk ["cargo", "clippy"] true
    targetOutcome := fun _ => ProcOutcome.mk [] ProcEnd.ok
    clippyOutcome := ProcOutcome.mk [] ProcEnd.ok }

/-- A concrete environment where the first target completes normally,
contributing a diagnostic for an unrelated file, and the second target's
process is terminated before delivering anything. -/
def envCancel : Env :=
  { envBase with
      targetOutcome := fun i =>
        match i with
        | 0 => ProcOutcome.mk [Diag.mk "src/other.rs"] ProcEnd.ok
        | _ => ProcOutcome.mk [] ProcEnd.cancelled }

/-- A concrete clippy-method environment whose single process delivers a
diagnostic for a file other than the triggering one. -/
def envClippy : Env :=
  { envBase with
      method := Method.clippy
      clippyOutcome := ProcOutcome.mk [Diag.mk "src/other.rs"] ProcEnd.ok }

/-- A concrete `no-trans`-method environment. -/
def envNoTrans : Env :=
  { envBase with method := Method.noTrans }

/-- A concrete environment where no `Cargo.toml` manifest is found. -/
def envNoManifest : Env :=
  { envBase with manifestDir := none }

example :
    buildTargetCommand envBase (Target.mk "src/main.rs" [])
      = ["cargo", "check", "--profile=test"] := by decide

example :
    (run envBase (St.init [])).2 = RunExit.completed := by decide

example :
    (run envCancel (St.init [])).2 = RunExit.cancelled := by decide

/-! ### Basic lemmas about the aggregator store and `on_json` -/

lemma hasMessageForPath_append (a b : List Diag) (p : String) :
    hasMessageForPath (a ++ b) p
      = (hasMessageForPath a p || hasMessageForPath b p) := by
  simp [hasMessageForPath]

lemma hasMessageForPath_eq_false (msgs : List Diag) (p : String)
    (h : ∀ d ∈ msgs, d.path ≠ p) : hasMessageForPath msgs p = false := by
  simp only [hasMessageForPath, List.any_eq_false]
  intro d hd
  simpa using h d hd

lemma onJson_messages (tf : String) (st : St) (d : Diag) :
    (onJson tf st d).messages = st.messages ++ [d] := rfl

lemma onJson_found (tf : String) (st : St) (d : Diag) :
    (onJson tf st d).thisViewFound
      = (st.thisViewFound || hasMessageForPath (st.messages ++ [d]) tf) := rfl

lemma processDiags_messages (tf : String) (ds : List Diag) :
    ∀ st : St, (processDiags tf ds st).messages = st.messages ++ ds := by
  induction ds with
  | nil => intro st; simp [processDiags]
  | cons d ds ih =>
      intro st
      show (processDiags tf ds (onJson tf st d)).messages = _
      rw [ih (onJson tf st d), onJson_messages]
      simp

lemma processDiags_frame (tf : String) (ds : List Diag) :
    ∀ st : St,
      (processDiags tf ds st).procs = st.procs ∧
      (processDiags tf ds st).statusSet = st.statusSet ∧
      (processDiags tf ds st).statusSets = st.statusSets ∧
      (processDiags tf ds st).clearCalls = st.clearCalls ∧
      (processDiags tf ds st).finalized = st.finalized ∧
      (processDiags tf ds st).resolverQueried = st.resolverQueried ∧
      (processDiags tf ds st).console = st.console := by
  induction ds with
  | nil => intro st; exact ⟨rfl, rfl, rfl, rfl, rfl, rfl, rfl⟩
  | cons d ds ih => intro st; exact ih (onJson tf st d)

lemma processDiags_found_mono (tf : String) (ds : List Diag) :
    ∀ st : St, st.thisViewFound = true →
      (processDiags tf ds st).thisViewFound = true := by
  induction ds with
  | nil => intro st h; exact h
  | cons d ds ih =>
      intro st h
      refine ih (onJson tf st d) ?_
      rw [onJson_found, h, Bool.true_or]

lemma processDiags_found_src (tf : String) (ds : List Diag) :
    ∀ st : St, (processDiags tf ds st).thisViewFound = true →
      st.thisViewFound = true ∨
        hasMessageForPath (processDiags tf ds st).messages tf = true := by
  induction ds with
  | nil => intro st h; exact Or.inl h
  | cons d ds ih =>
      intro st h
      rcases ih (onJson tf st d) h with h1 | h2
      · rw [onJson_found] at h1
        rcases Bool.or_eq_true_iff.mp h1 with h3 | h3
        · exact Or.inl h3
        · refine Or.inr ?_
          show hasMessageForPath
            (processDiags tf ds (onJson tf st d)).messages tf = true
          rw [processDiags_messages, onJson_messages, hasMessageForPath_append,
            h3, Bool.true_or]
      · exact Or.inr h2

lemma processDiags_found_false (tf : String) (ds : List Diag) :
    ∀ st : St, st.thisViewFound = false →
      hasMessageForPath (processDiags tf ds st).messages tf = false →
      (processDiags tf ds st).thisViewFound = false := by
  induction ds with
  | nil => intro st h _; exact h
  | cons d ds ih =>
      intro st h hmsg
      have hmsg' : hasMessageForPath
          (processDiags tf ds (onJson tf st d)).messages tf = false := hmsg
      rw [processDiags_messages, onJson_messages, hasMessageForPath_append,
        Bool.or_eq_false_iff] at hmsg'
      refine ih (onJson tf st d) ?_ hmsg
      rw [onJson_found, h, Bool.false_or]
      exact hmsg'.1

/-! ### Lemmas about one target-loop iteration (`applyTarget`) -/

lemma applyTarget_messages (env : Env) (i : Nat) (t : Target) (st : St) :
    (applyTarget env i t st).messages
      = st.messages ++ (env.targetOutcome i).diags :=
  processDiags_messages _ _ _

lemma applyTarget_procs (env : Env) (i : Nat) (t : Target) (st : St) :
    (applyTarget env i t st).procs
      = st.procs ++ [ProcStart.mk (buildTargetCommand env t) (some t.src)] :=
  ((processDiags_frame _ _ _).1).trans rfl

lemma applyTarget_frame (env : Env) (i : Nat) (t : Target) (st : St) :
    (applyTarget env i t st).statusSet = st.statusSet ∧
    (applyTarget env i t st).statusSets = st.statusSets ∧
    (applyTarget env i t st).clearCalls = st.clearCalls ∧
    (applyTarget env i t st).finalized = st.finalized ∧
    (applyTarget env i t st).resolverQueried = st.resolverQueried ∧
    (applyTarget env i t st).console = st.console :=
  (processDiags_frame _ _ _).2

lemma applyTarget_found_mono (env : Env) (i : Nat) (t : Target) (st : St)
    (h : st.thisViewFound = true) :
    (applyTarget env i t st).thisViewFound = true :=
  processDiags_found_mono _ _ _ h

lemma applyTarget_found_src (env : Env) (i : Nat) (t : Target) (st : St)
    (h : (applyTarget env i t st).thisViewFound = true) :
    st.thisViewFound = true ∨
      hasMessageForPath (applyTarget env i t st).messages
        env.triggeredFile = true :=
  processDiags_found_src _ _ _ h

lemma applyTarget_found_false (env : Env) (i : Nat) (t : Target) (st : St)
    (h : st.thisViewFound = false)
    (hmsg : hasMessageForPath (applyTarget env i t st).messages
      env.triggeredFile = false) :
    (applyTarget env i t st).thisViewFound = false :=
  processDiags_found_false _ _ _ h hmsg

/-! ### Lemmas about the unconditional target sequence (`runSeq`) -/

lemma runSeq_messages (env : Env) :
    ∀ (ts : List Target) (i : Nat) (st : St),
      (runSeq env ts i st).messages
        = st.messages ++ diagsFrom env i ts.length := by
  intro ts
  induction ts with
  | nil => intro i st; simp [runSeq, diagsFrom]
  | cons t rest ih =>
      intro i st
      show (runSeq env rest (i + 1) (applyTarget env i t st)).messages = _
      rw [ih (i + 1), applyTarget_messages]
      simp [diagsFrom, List.length_cons]

lemma runSeq_procs (env : Env) :
    ∀ (ts : List Target) (i : Nat) (st : St),
      (runSeq env ts i st).procs
        = st.procs
          ++ ts.map (fun t => ProcStart.mk (buildTargetCommand env t) (some t.src)) := by
  intro ts
  induction ts with
  | nil => intro i st; simp [runSeq]
  | cons t rest ih =>
      intro i st
      show (runSeq env rest (i + 1) (applyTarget env i t st)).procs = _
      rw [ih (i + 1), applyTarget_procs]
      simp

lemma runSeq_frame (env : Env) :
    ∀ (ts : List Target) (i : Nat) (st : St),
      (runSeq env ts i st).statusSet = st.statusSet ∧
      (runSeq env ts i st).statusSets = st.statusSets ∧
      (runSeq env ts i st).clearCalls = st.clearCalls ∧
      (runSeq env ts i st).finalized = st.finalized ∧
      (runSeq env ts i st).resolverQueried = st.resolverQueried ∧
      (runSeq env ts i st).console = st.console := by
  intro ts
  induction ts with
  | nil => intro i st; exact ⟨rfl, rfl, rfl, rfl, rfl, rfl⟩
  | cons t rest ih =>
      intro i st
      have h1 := applyTarget_frame env i t st
      have h2 := ih (i + 1) (applyTarget env i t st)
      exact ⟨h2.1.trans h1.1, h2.2.1.trans h1.2.1, h2.2.2.1.trans h1.2.2.1,
        h2.2.2.2.1.trans h1.2.2.2.1, h2.2.2.2.2.1.trans h1.2.2.2.2.1,
        h2.2.2.2.2.2.trans h1.2.2.2.2.2⟩

lemma runSeq_found_mono (env : Env) :
    ∀ (ts : List Target) (i : Nat) (st : St), st.thisViewFound = true →
      (runSeq env ts i st).thisViewFound = true := by
  intro ts
  induction ts with
  | nil => intro i st h; exact h
  | cons t rest ih =>
      intro i st h
      exact ih (i + 1) (applyTarget env i t st) (applyTarget_found_mono env i t st h)

lemma runSeq_found_false (env : Env) :
    ∀ (ts : List Target) (i : Nat) (st : St), st.thisViewFound = false →
      hasMessageForPath (runSeq env ts i st).messages env.triggeredFile = false →
      (runSeq env ts i st).thisViewFound = false := by
  intro ts
  induction ts with
  | nil => intro i st h _; exact h
  | cons t rest ih =>
      intro i st h hmsg
      have hmsg' := hmsg
      rw [show runSeq env (t :: rest) i st
            = runSeq env rest (i + 1) (applyTarget env i t st) from rfl,
          runSeq_messages, hasMessageForPath_append, Bool.or_eq_false_iff] at hmsg'
      refine ih (i + 1) (applyTarget env i t st) ?_ hmsg
      exact applyTarget_found_false env i t st h hmsg'.1

/-! ### Lemmas about the early-stopping target loop -/

lemma runTargetLoop_step_found (env : Env) (t : Target) (rest : List Target)
    (i : Nat) (st : St)
    (hres : (env.targetOutcome i).result = ProcEnd.ok)
    (hf : (applyTarget env i t st).thisViewFound = true) :
    runTargetLoop env (t :: rest) i st = (applyTarget env i t st, ProcEnd.ok) := by
  show (if (env.targetOutcome i).result = ProcEnd.ok then
          if (applyTarget env i t st).thisViewFound then
            (applyTarget env i t st, ProcEnd.ok)
          else runTargetLoop env rest (i + 1) (applyTarget env i t st)
        else (applyTarget env i t st, (env.targetOutcome i).result)) = _
  rw [if_pos hres, if_pos hf]

lemma runTargetLoop_step_next (env : Env) (t : Target) (rest : List Target)
    (i : Nat) (st : St)
    (hres : (env.targetOutcome i).result = ProcEnd.ok)
    (hf : (applyTarget env i t st).thisViewFound = false) :
    runTargetLoop env (t :: rest) i st
      = runTargetLoop env rest (i + 1) (applyTarget env i t st) := by
  show (if (env.targetOutcome i).result = ProcEnd.ok then
          if (applyTarget env i t st).thisViewFound then
            (applyTarget env i t st, ProcEnd.ok)
          else runTargetLoop env rest (i + 1) (applyTarget env i t st)
        else (applyTarget env i t st, (env.targetOutcome i).result)) = _
  rw [if_pos hres, if_neg (by simp [hf])]

lemma runTargetLoop_step_stop (env : Env) (t : Target) (rest : List Target)
    (i : Nat) (st : St)
    (hres : (env.targetOutcome i).result ≠ ProcEnd.ok) :
    runTargetLoop env (t :: rest) i st
      = (applyTarget env i t st, (env.targetOutcome i).result) := by
  show (if (env.targetOutcome i).result = ProcEnd.ok then
          if (applyTarget env i t st).thisViewFound then
            (applyTarget env i t st, ProcEnd.ok)
          else runTargetLoop env rest (i + 1) (applyTarget env i t st)
        else (applyTarget env i t st, (env.targetOutcome i).result)) = _
  rw [if_neg hres]

lemma loop_frame (env : Env) :
    ∀ (ts : List Target) (i : Nat) (st : St),
      ((runTargetLoop env ts i st).1).statusSet = st.statusSet ∧
      ((runTargetLoop env ts i st).1).statusSets = st.statusSets ∧
      ((runTargetLoop env ts i st).1).clearCalls = st.clearCalls ∧
      ((runTargetLoop env ts i st).1).finalized = st.finalized ∧
      ((runTargetLoop env ts i st).1).resolverQueried = st.resolverQueried ∧
      ((runTargetLoop env ts i st).1).console = st.console := by
  intro ts
  induction ts with
  | nil => intro i st; exact ⟨rfl, rfl, rfl, rfl, rfl, rfl⟩
  | cons t rest ih =>
      intro i st
      have h1 := applyTarget_frame env i t st
      by_cases hres : (env.targetOutcome i).result = ProcEnd.ok
      · cases hf : (applyTarget env i t st).thisViewFound
        · have h2 := ih (i + 1) (applyTarget env i t st)
          rw [runTargetLoop_step_next env t rest i st hres hf]
          exact ⟨h2.1.trans h1.1, h2.2.1.trans h1.2.1, h2.2.2.1.trans h1.2.2.1,
            h2.2.2.2.1.trans h1.2.2.2.1, h2.2.2.2.2.1.trans h1.2.2.2.2.1,
            h2.2.2.2.2.2.trans h1.2.2.2.2.2⟩
        · rw [runTargetLoop_step_found env t rest i st hres hf]
          exact h1
      · rw [runTargetLoop_step_stop env t rest i st hres]
        exact h1

lemma loop_found_mono (env : Env) :
    ∀ (ts : List Target) (i : Nat) (st : St), st.thisViewFound = true →
      ((runTargetLoop env ts i st).1).thisViewFound = true := by
  intro ts
  induction ts with
  | nil => intro i st h; exact h
  | cons t rest ih =>
      intro i st h
      have hf : (applyTarget env i t st).thisViewFound = true :=
        applyTarget_found_mono env i t st h
      by_cases hres : (env.targetOutcome i).result = ProcEnd.ok
      · rw [runTargetLoop_step_found env t rest i st hres hf]
        exact hf
      · rw [runTargetLoop_step_stop env t rest i st hres]
        exact hf

lemma loop_messages_ext (env : Env) :
    ∀ (ts : List Target) (i : Nat) (st : St),
      ∃ ds, ((runTargetLoop env ts i st).1).messages = st.messages ++ ds := by
  intro ts
  induction ts with
  | nil => intro i st; exact ⟨[], by simp [runTargetLoop]⟩
  | cons t rest ih =>
      intro i st
      by_cases hres : (env.targetOutcome i).result = ProcEnd.ok
      · cases hf : (applyTarget env i t st).thisViewFound
        · obtain ⟨ds, hds⟩ := ih (i + 1) (applyTarget env i t st)
          refine ⟨(env.targetOutcome i).diags ++ ds, ?_⟩
          rw [runTargetLoop_step_next env t rest i st hres hf, hds,
            applyTarget_messages]
          simp
        · refine ⟨(env.targetOutcome i).diags, ?_⟩
          rw [runTargetLoop_step_found env t rest i st hres hf]
          exact applyTarget_messages env i t st
      · refine ⟨(env.targetOutcome i).diags, ?_⟩
        rw [runTargetLoop_step_stop env t rest i st hres]
        exact applyTarget_messages env i t st

lemma loop_found_src (env : Env) :
    ∀ (ts : List Target) (i : Nat) (st : St),
      ((runTargetLoop env ts i st).1).thisViewFound = true →
      st.thisViewFound = true ∨
        hasMessageForPath ((runTargetLoop env ts i st).1).messages
          env.triggeredFile = true := by
  intro ts
  induction ts with
  | nil => intro i st h; exact Or.inl h
  | cons t rest ih =>
      intro i st
      by_cases hres : (env.targetOutcome i).result = ProcEnd.ok
      · cases hf : (applyTarget env i t st).thisViewFound
        · rw [runTargetLoop_step_next env t rest i st hres hf]
          intro h
          rcases ih (i + 1) (applyTarget env i t st) h with h1 | h2
          · rw [hf] at h1; exact absurd h1 (by simp)
          · exact Or.inr h2
        · rw [runTargetLoop_step_found env t rest i st hres hf]
          intro _
          exact applyTarget_found_src env i t st hf
      · rw [runTargetLoop_step_stop env t rest i st hres]
        intro h
        exact applyTarget_found_src env i t st h

lemma loop_ok_spec (env : Env)
    (hok : ∀ j, (env.targetOutcome j).result = ProcEnd.ok) :
    ∀ (ts : List Target) (i : Nat) (st : St),
      ∃ k, k ≤ ts.length ∧
        runTargetLoop env ts i st = (runSeq env (ts.take k) i st, ProcEnd.ok) ∧
        (0 < ts.length → 0 < k) ∧
        (∀ n, 0 < n → n < k →
          (runSeq env (ts.take n) i st).thisViewFound = false) ∧
        (k < ts.length →
          (runSeq env (ts.take k) i st).thisViewFound = true) := by
  intro ts
  induction ts with
  | nil =>
      intro i st
      refine ⟨0, le_rfl, rfl, ?_, ?_, ?_⟩
      · intro h; exact absurd h (by simp)
      · intro n h1 h2; exact absurd h2 (by omega)
      · intro h; exact absurd h (by simp)
  | cons t rest ih =>
      intro i st
      cases hf : (applyTarget env i t st).thisViewFound
      · obtain ⟨k, hk_le, hk_eq, _, hk_false, hk_stop⟩ :=
          ih (i + 1) (applyTarget env i t st)
        refine ⟨k + 1, by simpa using Nat.succ_le_succ hk_le, ?_,
          fun _ => Nat.succ_pos k, ?_, ?_⟩
        · rw [runTargetLoop_step_next env t rest i st (hok i) hf,
            List.take_succ_cons]
          exact hk_eq
        · intro n h1 h2
          cases n with
          | zero => exact absurd h1 (by omega)
          | succ m =>
              rw [List.take_succ_cons]
              show (runSeq env (rest.take m) (i + 1)
                (applyTarget env i t st)).thisViewFound = false
              cases m with
              | zero => simpa [runSeq] using hf
              | succ m' => exact hk_false (m' + 1) (Nat.succ_pos _) (by omega)
        · intro hlt
          rw [List.take_succ_cons]
          show (runSeq env (rest.take k) (i + 1)
            (applyTarget env i t st)).thisViewFound = true
          exact hk_stop (by simpa using Nat.lt_of_succ_lt_succ hlt)
      · refine ⟨1, by simp, ?_, fun _ => Nat.one_pos, ?_, ?_⟩
        · rw [runTargetLoop_step_found env t rest i st (hok i) hf]
          rw [show (t :: rest).take 1 = [t] by simp]
          rfl
        · intro n h1 h2; exact absurd h2 (by omega)
        · intro _
          rw [show (t :: rest).take 1 = [t] by simp]
          exact hf

lemma loop_cancel_spec (env : Env) :
    ∀ (ts : List Target) (i : Nat) (st st' : St),
      runTargetLoop env ts i st = (st', ProcEnd.cancelled) →
      ∃ k, k < ts.length ∧
        (env.targetOutcome (i + k)).result = ProcEnd.cancelled ∧
        (∀ j, j < k → (env.targetOutcome (i + j)).result = ProcEnd.ok) ∧
        st' = runSeq env (ts.take (k + 1)) i st := by
  intro ts
  induction ts with
  | nil =>
      intro i st st' h
      simp [runTargetLoop, Prod.ext_iff] at h
  | cons t rest ih =>
      intro i st st' h
      by_cases hres : (env.targetOutcome i).result = ProcEnd.ok
      · cases hf : (applyTarget env i t st).thisViewFound
        · rw [runTargetLoop_step_next env t rest i st hres hf] at h
          obtain ⟨k, hk1, hk2, hk3, hk4⟩ :=
            ih (i + 1) (applyTarget env i t st) st' h
          refine ⟨k + 1, by simpa using Nat.succ_lt_succ hk1, ?_, ?_, ?_⟩
          · rw [show i + (k + 1) = (i + 1) + k by omega]
            exact hk2
          · intro j hj
            cases j with
            | zero => simpa using hres
            | succ m =>
                rw [show i + (m + 1) = (i + 1) + m by omega]
                exact hk3 m (by omega)
          · rw [List.take_succ_cons]
            show st' = runSeq env (rest.take (k + 1)) (i + 1)
              (applyTarget env i t st)
            exact hk4
        · rw [runTargetLoop_step_found env t rest i st hres hf] at h
          exact absurd (congrArg Prod.snd h) (by simp)
      · rw [runTargetLoop_step_stop env t rest i st hres] at h
        have hres' : (env.targetOutcome i).result = ProcEnd.cancelled :=
          congrArg Prod.snd h
        refine ⟨0, by simp, by simpa using hres', ?_, ?_⟩
        · intro j hj; exact absurd hj (by omega)
        · have hst : st' = applyTarget env i t st :=
            (congrArg Prod.fst h).symm
          rw [hst, show (t :: rest).take 1 = [t] by simp]
          rfl

/-! ### Unfolding lemmas for `get_rustc_messages` and `run` -/

lemma get_rustc_messages_targets (env : Env) (st : St)
    (h : env.method ≠ Method.clippy) :
    get_rustc_messages env st
      = runTargetLoop env env.targets 0 (loopStart st) := by
  unfold get_rustc_messages
  cases hm : env.method
  · rfl
  · rfl
  · exact absurd hm h

lemma get_rustc_messages_clippy (env : Env) (st : St)
    (h : env.method = Method.clippy) :
    get_rustc_messages env st
      = (processDiags env.triggeredFile env.clippyOutcome.diags
          { st with procs := st.procs ++ [ProcStart.mk env.clippyCmd.command none] },
        env.clippyOutcome.result) := by
  unfold get_rustc_messages
  rw [h]

lemma run_none (env : Env) (st : St) (h : env.manifestDir = none) :
    run env st
      = ({ st with console := st.console ++ noManifestConsole env.triggeredFile },
        RunExit.noManifest) := by
  unfold run
  rw [h]

lemma run_some (env : Env) (st : St) (d : String)
    (h : env.manifestDir = some d) :
    run env st = runFinish (get_rustc_messages env (preLoop st)) := by
  unfold run
  rw [h]

lemma diagsFrom_mem (env : Env) :
    ∀ (n i : Nat) (d : Diag), d ∈ diagsFrom env i n →
      ∃ j, j < n ∧ d ∈ (env.targetOutcome (i + j)).diags := by
  intro n
  induction n with
  | zero => intro i d h; exact absurd h (by simp [diagsFrom])
  | succ m ih =>
      intro i d h
      rw [show diagsFrom env i (m + 1)
            = (env.targetOutcome i).diags ++ diagsFrom env (i + 1) m from rfl,
        List.mem_append] at h
      rcases h with h | h
      · exact ⟨0, Nat.succ_pos m, by simpa using h⟩
      · obtain ⟨j, hj1, hj2⟩ := ih (i + 1) d h
        exact ⟨j + 1, by omega, by rwa [show i + (j + 1) = (i + 1) + j by omega]⟩

/-! ### Claim theorems -/

/-- Claim C4: in check mode, for every target, `--profile=test` is
appended to the invocation's argument vector if and only if the
include-tests option is enabled and the resolved toolchain version
satisfies `>=1.23.0`; it is absent for any lower version and absent
whenever include-tests is disabled, independent of version. -/
theorem check_mode_test_profile_gate (env : Env) (t : Target)
    (h : env.method = Method.check) :
    buildTargetCommand env t
      = (env.getCommand t).command
        ++ (if env.includeTests = true ∧ (env.getCommand t).rustcVersionOk = true
            then ["--profile=test"] else []) := by
  simp only [buildTargetCommand, h]
  cases hit : env.includeTests <;>
    cases hv : (env.getCommand t).rustcVersionOk <;>
      simp [hit, hv]

/-- Witness for C4 at a concrete environment and target. -/
theorem check_mode_test_profile_gate_witness :
    envBase.method = Method.check ∧
    buildTargetCommand envBase (Target.mk "src/main.rs" [])
      = (envBase.getCommand (Target.mk "src/main.rs" [])).command
        ++ (if envBase.includeTests = true ∧
              (envBase.getCommand (Target.mk "src/main.rs" [])).rustcVersionOk = true
            then ["--profile=test"] else []) :=
  ⟨rfl, check_mode_test_profile_gate envBase (Target.mk "src/main.rs" []) rfl⟩

/-- Claim C5: in `no-trans` (legacy-unstable) mode, for every target,
`--`, `-Zno-trans`, `-Zunstable-options` are always appended, and
`--test` is additionally appended if and only if the include-tests
option is enabled and the target's argument flags mark it as neither a
test nor a benchmark target; no version gate applies. -/
theorem no_trans_mode_flags (env : Env) (t : Target)
    (h : env.method = Method.noTrans) :
    buildTargetCommand env t
      = (env.getCommand t).command
        ++ ["--", "-Zno-trans", "-Zunstable-options"]
        ++ (if env.includeTests = true ∧ isTestOrBench t.args = false
            then ["--test"] else []) := by
  simp only [buildTargetCommand, h]
  cases hit : env.includeTests <;>
    cases hb : isTestOrBench t.args <;>
      simp [hit, hb]

/-- Witness for C5 at a concrete environment and target. -/
theorem no_trans_mode_flags_witness :
    envNoTrans.method = Method.noTrans ∧
    buildTargetCommand envNoTrans (Target.mk "src/main.rs" [])
      = (envNoTrans.getCommand (Target.mk "src/main.rs" [])).command
        ++ ["--", "-Zno-trans", "-Zunstable-options"]
        ++ (if envNoTrans.includeTests = true ∧
              isTestOrBench (Target.mk "src/main.rs" []).args = false
            then ["--test"] else []) :=
  ⟨rfl, no_trans_mode_flags envNoTrans (Target.mk "src/main.rs" []) rfl⟩

/-- Claim C9: when the host editor's version is below 3118,
`on_post_save` returns immediately and performs no action at all: no
check run is started and, even when the feature is disabled, previously
recorded diagnostics are not cleared (the disabled-clear branch is
unreachable). -/
theorem old_version_save_noop (e : SaveEnv) (h : e.version < 3118) :
    on_post_save e = SaveAction.noAction := by
  unfold on_post_save
  rw [if_pos h]

/-- Witness for C9: a pre-3118 editor with the feature disabled still
performs no action (in particular it does not clear messages). -/
theorem old_version_save_noop_witness :
    (SaveEnv.mk 3000 false true).version < 3118 ∧
    on_post_save (SaveEnv.mk 3000 false true) = SaveAction.noAction :=
  ⟨by decide, old_version_save_noop (SaveEnv.mk 3000 false true) (by decide)⟩

/-- Claim C6: for every run outcome — normal completion (`completed`),
manifest-not-found abort, cancellation abort, or a process/tool error
propagating out of the run loop — the status indicator ends in the
cleared state when `run` returns.  (The indicator starts cleared; the
no-manifest path never sets it, and every other path erases it in the
`finally` block.) -/
theorem status_cleared_on_every_exit (env : Env) (st : St)
    (h : st.statusSet = false) :
    ((run env st).1).statusSet = false := by
  cases hm : env.manifestDir with
  | none => rw [run_none env st hm]; exact h
  | some d =>
      rw [run_some env st d hm]
      rcases hr : get_rustc_messages env (preLoop st) with ⟨st2, e2⟩
      cases e2 <;> rfl

/-- Witness for C6 at a concrete environment. -/
theorem status_cleared_on_every_exit_witness :
    (St.init []).statusSet = false ∧
    ((run envBase (St.init [])).1).statusSet = false :=
  ⟨rfl, status_cleared_on_every_exit envBase (St.init []) rfl⟩

/-- Claim C7: when no build manifest is found, the run aborts silently:
it exits with `noManifest` (no exception reaches the caller of the
fire-and-forget start), the console records the failure, the
aggregator's diagnostics are neither cleared nor modified, and no
target is resolved nor process started. -/
theorem no_manifest_silent_abort (env : Env) (st : St)
    (h : env.manifestDir = none) :
    (run env st).2 = RunExit.noManifest ∧
    ((run env st).1).console
      = st.console ++ noManifestConsole env.triggeredFile ∧
    ((run env st).1).clearCalls = st.clearCalls ∧
    ((run env st).1).messages = st.messages ∧
    ((run env st).1).resolverQueried = st.resolverQueried ∧
    ((run env st).1).procs = st.procs := by
  rw [run_none env st h]
  exact ⟨rfl, rfl, rfl, rfl, rfl, rfl⟩

/-- Witness for C7 at a concrete environment. -/
theorem no_manifest_silent_abort_witness :
    envNoManifest.manifestDir = none ∧
    ((run envNoManifest (St.init [])).2 = RunExit.noManifest ∧
      ((run envNoManifest (St.init [])).1).console
        = (St.init []).console ++ noManifestConsole envNoManifest.triggeredFile ∧
      ((run envNoManifest (St.init [])).1).clearCalls = (St.init []).clearCalls ∧
      ((run envNoManifest (St.init [])).1).messages = (St.init []).messages ∧
      ((run envNoManifest (St.init [])).1).resolverQueried
        = (St.init []).resolverQueried ∧
      ((run envNoManifest (St.init [])).1).procs = (St.init []).procs) :=
  ⟨rfl, no_manifest_silent_abort envNoManifest (St.init []) rfl⟩

/-- Claim C10: in the manifest-not-found abort path the status
indicator is never set (zero `set_status` calls), the aggregator clear
is never invoked, and the whole observable state is unchanged apart
from console log output. -/
theorem no_manifest_frame (env : Env) (st : St)
    (h : env.manifestDir = none) :
    ((run env st).1).statusSets = st.statusSets ∧
    ((run env st).1).statusSet = st.statusSet ∧
    ((run env st).1).clearCalls = st.clearCalls ∧
    (run env st).1
      = { st with console := st.console ++ noManifestConsole env.triggeredFile } := by
  rw [run_none env st h]
  exact ⟨rfl, rfl, rfl, rfl⟩

/-- Witness for C10 at a concrete environment with a pre-existing
diagnostic in the store. -/
theorem no_manifest_frame_witness :
    envNoManifest.manifestDir = none ∧
    ((run envNoManifest (St.init [Diag.mk "src/old.rs"])).1).statusSets
        = (St.init [Diag.mk "src/old.rs"]).statusSets ∧
    ((run envNoManifest (St.init [Diag.mk "src/old.rs"])).1).statusSet
        = (St.init [Diag.mk "src/old.rs"]).statusSet ∧
    ((run envNoManifest (St.init [Diag.mk "src/old.rs"])).1).clearCalls
        = (St.init [Diag.mk "src/old.rs"]).clearCalls ∧
    (run envNoManifest (St.init [Diag.mk "src/old.rs"])).1
      = { St.init [Diag.mk "src/old.rs"] with
            console := (St.init [Diag.mk "src/old.rs"]).console
              ++ noManifestConsole envNoManifest.triggeredFile } :=
  ⟨rfl, (no_manifest_frame envNoManifest (St.init [Diag.mk "src/old.rs"]) rfl).1,
    (no_manifest_frame envNoManifest (St.init [Diag.mk "src/old.rs"]) rfl).2.1,
    (no_manifest_frame envNoManifest (St.init [Diag.mk "src/old.rs"]) rfl).2.2.1,
    (no_manifest_frame envNoManifest (St.init [Diag.mk "src/old.rs"]) rfl).2.2.2⟩

/-- Claim C3: in clippy (lint-all) mode, the target detector is never
queried, exactly one invocation is built and its process run once, and
when that process ends normally the run finalizes (`completed`)
regardless of whether any diagnostic matched the triggering file (no
hypothesis on the delivered diagnostics is needed). -/
theorem clippy_single_invocation_completes (env : Env) (st : St) (d : String)
    (hm : env.method = Method.clippy)
    (hd : env.manifestDir = some d)
    (hok : env.clippyOutcome.result = ProcEnd.ok) :
    (run env st).2 = RunExit.completed ∧
    ((run env st).1).resolverQueried = st.resolverQueried ∧
    ((run env st).1).procs
      = st.procs ++ [ProcStart.mk env.clippyCmd.command none] ∧
    ((run env st).1).finalized = true := by
  rw [run_some env st d hd, get_rustc_messages_clippy env (preLoop st) hm, hok]
  refine ⟨rfl, ?_, ?_, rfl⟩
  · exact (processDiags_frame _ _ _).2.2.2.2.2.1
  · exact (processDiags_frame _ _ _).1

/-- Witness for C3 at a concrete environment whose single clippy
process reports a diagnostic not matching the triggering file. -/
theorem clippy_single_invocation_completes_witness :
    envClippy.method = Method.clippy ∧
    envClippy.manifestDir = some "proj" ∧
    envClippy.clippyOutcome.result = ProcEnd.ok ∧
    ((run envClippy (St.init [])).2 = RunExit.completed ∧
      ((run envClippy (St.init [])).1).resolverQueried
        = (St.init []).resolverQueried ∧
      ((run envClippy (St.init [])).1).procs
        = (St.init []).procs ++ [ProcStart.mk envClippy.clippyCmd.command none] ∧
      ((run envClippy (St.init [])).1).finalized = true) :=
  ⟨rfl, rfl, rfl,
    clippy_single_invocation_completes envClippy (St.init []) "proj" rfl rfl rfl⟩

/-- Claim C8: within one run the found-flag is reset to false before
any target's process starts (line 104, part of the pre-loop setup), and
it is monotone thereafter: `get_rustc_messages` never clears it, and it
becomes true only when the aggregator reports a message for the
triggering file path (the `on_json` callback's sole assignment). -/
theorem found_flag_reset_and_monotone (env : Env) (st : St) :
    (preLoop st).thisViewFound = false ∧
    (∀ st2 : St, st2.thisViewFound = true →
      ((get_rustc_messages env st2).1).thisViewFound = true) ∧
    (∀ st2 : St, ((get_rustc_messages env st2).1).thisViewFound = true →
      st2.thisViewFound = true ∨
        hasMessageForPath ((get_rustc_messages env st2).1).messages
          env.triggeredFile = true) := by
  refine ⟨rfl, ?_, ?_⟩
  · intro st2 h2
    by_cases hm : env.method = Method.clippy
    · rw [get_rustc_messages_clippy env st2 hm]
      exact processDiags_found_mono _ _ _ h2
    · rw [get_rustc_messages_targets env st2 hm]
      exact loop_found_mono env env.targets 0 (loopStart st2) h2
  · intro st2 h2
    by_cases hm : env.method = Method.clippy
    · rw [get_rustc_messages_clippy env st2 hm] at h2 ⊢
      exact processDiags_found_src _ _ _ h2
    · rw [get_rustc_messages_targets env st2 hm] at h2 ⊢
      exact loop_found_src env env.targets 0 (loopStart st2) h2

/-- Witness for C8: the pre-loop state has the flag cleared, and from a
state with the flag set the loop keeps it set. -/
theorem found_flag_reset_and_monotone_witness :
    (preLoop (St.init [])).thisViewFound = false ∧
    ((get_rustc_messages envBase
        { St.init [] with thisViewFound := true }).1).thisViewFound = true :=
  ⟨(found_flag_reset_and_monotone envBase (St.init [])).1,
    (found_flag_reset_and_monotone envBase (St.init [])).2.1
      { St.init [] with thisViewFound := true } rfl⟩

/-- Claim C2: if a cancellation signal (`ProcessTerminatedError`) is
raised while running or waiting on a target's process, the run ends
without ever calling the aggregator's finalize step, every diagnostic
already forwarded for previously completed targets remains recorded in
the store (the store holds exactly the streams of targets `0..k`, where
target `k` is the cancelled one and all earlier targets completed
normally), and the status indicator is still cleared. -/
theorem cancellation_aborts_without_finalize (env : Env) (st st' : St)
    (hm : env.method ≠ Method.clippy)
    (h : run env st = (st', RunExit.cancelled)) :
    st'.finalized = st.finalized ∧
    st'.statusSet = false ∧
    ∃ k, k < env.targets.length ∧
      (env.targetOutcome k).result = ProcEnd.cancelled ∧
      (∀ j, j < k → (env.targetOutcome j).result = ProcEnd.ok) ∧
      st'.messages = diagsFrom env 0 (k + 1) := by
  cases hd : env.manifestDir with
  | none =>
      rw [run_none env st hd] at h
      exact absurd (congrArg Prod.snd h) (by simp)
  | some d =>
      rw [run_some env st d hd,
        get_rustc_messages_targets env (preLoop st) hm] at h
      rcases hr : runTargetLoop env env.targets 0 (loopStart (preLoop st))
        with ⟨st2, e2⟩
      rw [hr] at h
      cases e2 with
      | ok => exact absurd (congrArg Prod.snd h) (by simp [runFinish])
      | failed => exact absurd (congrArg Prod.snd h) (by simp [runFinish])
      | cancelled =>
          have hst : st' = { st2 with statusSet := false } :=
            (congrArg Prod.fst h).symm
          obtain ⟨k, hk1, hk2, hk3, hk4⟩ :=
            loop_cancel_spec env env.targets 0 (loopStart (preLoop st)) st2 hr
          refine ⟨?_, ?_, k, hk1, by simpa using hk2, ?_, ?_⟩
          · rw [hst]
            show st2.finalized = st.finalized
            rw [hk4]
            exact (runSeq_frame env _ 0 _).2.2.2.1
          · rw [hst]
          · intro j hj
            simpa using hk3 j hj
          · rw [hst]
            show st2.messages = diagsFrom env 0 (k + 1)
            rw [hk4, runSeq_messages]
            have hlen : (env.targets.take (k + 1)).length = k + 1 := by
              rw [List.length_take]
              exact Nat.min_eq_left (by omega)
            rw [hlen]
            rfl

/-- Witness for C2: target 0 completes and contributes a diagnostic for
an unrelated file, target 1 is cancelled; the run aborts with the
store still holding target 0's diagnostic and finalize never called. -/
theorem cancellation_aborts_without_finalize_witness :
    envCancel.method ≠ Method.clippy ∧
    run envCancel (St.init [])
      = ((run envCancel (St.init [])).1, RunExit.cancelled) ∧
    (((run envCancel (St.init [])).1).finalized = (St.init []).finalized ∧
      ((run envCancel (St.init [])).1).statusSet = false ∧
      ∃ k, k < envCancel.targets.length ∧
        (envCancel.targetOutcome k).result = ProcEnd.cancelled ∧
        (∀ j, j < k → (envCancel.targetOutcome j).result = ProcEnd.ok) ∧
        ((run envCancel (St.init [])).1).messages = diagsFrom envCancel 0 (k + 1)) :=
  ⟨by decide, rfl,
    cancellation_aborts_without_finalize envCancel (St.init [])
      ((run envCancel (St.init [])).1) (by decide) rfl⟩

/-- Claim C1: in the target-iterating modes (`check` and `no-trans`),
for every detector-returned target sequence (all processes completing
normally), there is a cut `k` such that exactly the first `k` targets
are started, in detector order, each exactly once; the first target is
always started, and target `i+1` is started if and only if the
found-flag is false after target `i` has been waited on; consequently
if no target's diagnostics reference the triggering file (store
initially clear), every target is run exactly once in detector order. -/
theorem check_mode_early_stop (env : Env) (st : St)
    (hm : env.method ≠ Method.clippy)
    (hok : ∀ j, (env.targetOutcome j).result = ProcEnd.ok) :
    ∃ k, k ≤ env.targets.length ∧
      get_rustc_messages env st = (afterTargets env st k, ProcEnd.ok) ∧
      (0 < env.targets.length → 0 < k) ∧
      (afterTargets env st k).procs
        = st.procs ++ (env.targets.take k).map
            (fun t => ProcStart.mk (buildTargetCommand env t) (some t.src)) ∧
      (∀ i, i < k → i + 1 < env.targets.length →
        (i + 1 < k ↔ (afterTargets env st (i + 1)).thisViewFound = false)) ∧
      (st.thisViewFound = false → st.messages = [] →
        (∀ j, j < env.targets.length →
          ∀ d ∈ (env.targetOutcome j).diags, d.path ≠ env.triggeredFile) →
        k = env.targets.length) := by
  obtain ⟨k, hk_le, hk_eq, hk_pos, hk_false, hk_stop⟩ :=
    loop_ok_spec env hok env.targets 0 (loopStart st)
  refine ⟨k, hk_le, ?_, hk_pos, ?_, ?_, ?_⟩
  · rw [get_rustc_messages_targets env st hm]
    exact hk_eq
  · show (runSeq env (env.targets.take k) 0 (loopStart st)).procs = _
    rw [runSeq_procs]
    rfl
  · intro i hik hlen
    constructor
    · intro hlt
      exact hk_false (i + 1) (Nat.succ_pos _) hlt
    · intro hfnd
      by_contra hcon
      have hki : k = i + 1 := by omega
      have hstop := hk_stop (by omega)
      rw [hki] at hstop
      have hfnd' : (runSeq env (env.targets.take (i + 1)) 0
          (loopStart st)).thisViewFound = false := hfnd
      rw [hfnd'] at hstop
      exact absurd hstop (by simp)
  · intro h0 hmsgs hnd
    by_contra hcon
    have hklt : k < env.targets.length := lt_of_le_of_ne hk_le hcon
    have hfound := hk_stop hklt
    have hflat : (runSeq env (env.targets.take k) 0
        (loopStart st)).thisViewFound = false := by
      apply runSeq_found_false
      · exact h0
      · rw [runSeq_messages]
        apply hasMessageForPath_eq_false
        intro d hd
        rw [List.mem_append] at hd
        rcases hd with hd | hd
        · have hnil : (loopStart st).messages = [] := hmsgs
          rw [hnil] at hd
          exact absurd hd (by simp)
        · obtain ⟨j, hj1, hj2⟩ := diagsFrom_mem env _ 0 d hd
          have hjlen : j < env.targets.length := by
            have h1 : (env.targets.take k).length ≤ env.targets.length := by
              rw [List.length_take]
              exact Nat.min_le_right _ _
            omega
          exact hnd j hjlen d (by simpa using hj2)
    rw [hflat] at hfound
    exact absurd hfound (by simp)

/-- Witness for C1 at a concrete two-target environment with no
matching diagnostics. -/
theorem check_mode_early_stop_witness :
    envBase.method ≠ Method.clippy ∧
    (∀ j, (envBase.targetOutcome j).result = ProcEnd.ok) ∧
    ∃ k, k ≤ envBase.targets.length ∧
      get_rustc_messages envBase (St.init [])
        = (afterTargets envBase (St.init []) k, ProcEnd.ok) ∧
      (0 < envBase.targets.length → 0 < k) ∧
      (afterTargets envBase (St.init []) k).procs
        = (St.init []).procs ++ (envBase.targets.take k).map
            (fun t => ProcStart.mk (buildTargetCommand envBase t) (some t.src)) ∧
      (∀ i, i < k → i + 1 < envBase.targets.length →
        (i + 1 < k ↔
          (afterTargets envBase (St.init []) (i + 1)).thisViewFound = false)) ∧
      ((St.init []).thisViewFound = false → (St.init []).messages = [] →
        (∀ j, j < envBase.targets.length →
          ∀ d ∈ (envBase.targetOutcome j).diags,
            d.path ≠ envBase.triggeredFile) →
        k = envBase.targets.length) :=
  ⟨by decide, fun _ => rfl,
    check_mode_early_stop envBase (St.init []) (by decide) (fun _ => rfl)⟩
